import Mathlib

/-!
Verification of the Auralux audio visualizer against its specification.

The development shallowly embeds the smoothing, per-entity update and
background wrap logic of `src/js/visualizer.js`, `src/js/background-system.js`
and `src/js/main.js` as Lean functions over `ℚ` (JavaScript numbers modelled
as exact rationals), with `Math.sin` / `Math.cos` / `Math.random`
parametrised as abstract functions where they occur.
-/

namespace Auralux

/-! ## Exponential smoothing (Visualizer.update, visualizer.js:552-560) -/

/-- One-pole smoothing update, `state += (incoming - state) * s`
(visualizer.js:557-560, background-system.js:537-538). -/
def smoothStep (s x st : ℚ) : ℚ :=
  st + (x - st) * s

/-- The fixed smoothing constant `s = 0.12` of `Visualizer.update`
(visualizer.js:556). -/
def sFactor : ℚ := 12/100

/-- The smoothed four-signal state `this.smoothedAudio`
(visualizer.js:50). -/
structure SmoothedAudio where
  amplitude : ℚ
  bass : ℚ
  mid : ℚ
  treble : ℚ
deriving DecidableEq, Repr

/-- The per-frame audio feature fields consumed by `Visualizer.update`. -/
structure AudioData where
  amplitude : ℚ
  bass : ℚ
  mid : ℚ
  treble : ℚ
deriving DecidableEq, Repr

/-- The smoothing block of `Visualizer.update` (visualizer.js:556-560):
each of the four signals is advanced by `smoothStep` with factor `0.12`. -/
def updateSmoothing (sa : SmoothedAudio) (a : AudioData) : SmoothedAudio :=
  { amplitude := smoothStep sFactor a.amplitude sa.amplitude
    bass := smoothStep sFactor a.bass sa.bass
    mid := smoothStep sFactor a.mid sa.mid
    treble := smoothStep sFactor a.treble sa.treble }

/-- The initial smoothing state of the `Visualizer` constructor
(visualizer.js:50): all four signals start at `0`. -/
def initialSmoothedAudio : SmoothedAudio :=
  { amplitude := 0, bass := 0, mid := 0, treble := 0 }

/-- Iterating the scalar smoothing update with a constant incoming value
`x`, starting from `st`. -/
def smoothIter (x st : ℚ) : ℕ → ℚ
  | 0 => st
  | n + 1 => smoothStep sFactor x (smoothIter x st n)

lemma smoothIter_succ_sub (x st : ℚ) (n : ℕ) :
    smoothIter x st (n + 1) - x = (smoothIter x st n - x) * (22/25) := by
  simp only [smoothIter, smoothStep, sFactor]
  ring

lemma smoothIter_sub (x st : ℚ) (n : ℕ) :
    smoothIter x st n - x = (st - x) * (22/25) ^ n := by
  induction n with
  | zero => simp [smoothIter]
  | succ n ih => rw [smoothIter_succ_sub, ih, pow_succ]; ring

/-- C1: with the constant `s = 0.12`, a constant incoming value `x ∈ [0,1]`
drives the smoothed state to `x` (ε-N convergence), the distance to `x`
strictly decreases at every step while the state differs from `x`, and the
state never crosses to the other side of `x`. -/
theorem smoothing_converges_monotone (x st : ℚ) (hx0 : 0 ≤ x) (hx1 : x ≤ 1) :
    (∀ ε : ℚ, 0 < ε → ∃ N : ℕ, ∀ n : ℕ, N ≤ n → |smoothIter x st n - x| < ε)
    ∧ (∀ n : ℕ, smoothIter x st n ≠ x →
        |smoothIter x st (n + 1) - x| < |smoothIter x st n - x|)
    ∧ (∀ n : ℕ, 0 ≤ (smoothIter x st (n + 1) - x) * (smoothIter x st n - x)) := by
  refine ⟨?_, ?_, ?_⟩
  · intro ε hε
    rcases eq_or_ne st x with h | h
    · exact ⟨0, fun n _ => by simp [smoothIter_sub, h, hε]⟩
    · have habs : 0 < |st - x| := abs_pos.2 (sub_ne_zero.2 h)
      obtain ⟨N, hN⟩ := exists_pow_lt_of_lt_one (div_pos hε habs)
        (show (22/25 : ℚ) < 1 by norm_num)
      refine ⟨N, fun n hn => ?_⟩
      rw [smoothIter_sub, abs_mul, abs_pow, abs_of_pos (show (0:ℚ) < 22/25 by norm_num)]
      calc |st - x| * (22/25) ^ n
          ≤ |st - x| * (22/25) ^ N := by
            exact mul_le_mul_of_nonneg_left
              (pow_le_pow_of_le_one (by norm_num) (by norm_num) hn) (le_of_lt habs)
        _ < |st - x| * (ε / |st - x|) := by
            exact mul_lt_mul_of_pos_left hN habs
        _ = ε := by field_simp
  · intro n hne
    rw [smoothIter_succ_sub, abs_mul, abs_of_pos (show (0:ℚ) < 22/25 by norm_num)]
    have habs : 0 < |smoothIter x st n - x| := abs_pos.2 (sub_ne_zero.2 hne)
    calc |smoothIter x st n - x| * (22/25)
        < |smoothIter x st n - x| * 1 := by
          exact mul_lt_mul_of_pos_left (by norm_num) habs
      _ = |smoothIter x st n - x| := mul_one _
  · intro n
    rw [smoothIter_succ_sub]
    have h : (smoothIter x st n - x) * (22/25) * (smoothIter x st n - x)
        = (smoothIter x st n - x) ^ 2 * (22/25) := by ring
    rw [h]
    positivity

/-- Witness for C1 at `x = 1`, `st = 0`. -/
theorem smoothing_converges_monotone_witness :
    (∀ ε : ℚ, 0 < ε → ∃ N : ℕ, ∀ n : ℕ, N ≤ n → |smoothIter 1 0 n - 1| < ε)
    ∧ (∀ n : ℕ, smoothIter 1 0 n ≠ 1 →
        |smoothIter 1 0 (n + 1) - 1| < |smoothIter 1 0 n - 1|)
    ∧ (∀ n : ℕ, 0 ≤ (smoothIter 1 0 (n + 1) - 1) * (smoothIter 1 0 n - 1)) :=
  smoothing_converges_monotone 1 0 (by norm_num) (by norm_num)

/-! ## Interval preservation of smoothing (C10) -/

lemma smoothStep_mem_unit {s x st : ℚ} (hs0 : 0 ≤ s) (hs1 : s ≤ 1)
    (hx0 : 0 ≤ x) (hx1 : x ≤ 1) (hst0 : 0 ≤ st) (hst1 : st ≤ 1) :
    0 ≤ smoothStep s x st ∧ smoothStep s x st ≤ 1 := by
  unfold smoothStep
  constructor
  · nlinarith
  · nlinarith

/-- Predicate: every field of an `AudioData` frame lies in `[0,1]`. -/
def AudioData.inUnit (a : AudioData) : Prop :=
  0 ≤ a.amplitude ∧ a.amplitude ≤ 1 ∧ 0 ≤ a.bass ∧ a.bass ≤ 1
    ∧ 0 ≤ a.mid ∧ a.mid ≤ 1 ∧ 0 ≤ a.treble ∧ a.treble ≤ 1

/-- Predicate: every field of the smoothed state lies in `[0,1]`. -/
def SmoothedAudio.inUnit (sa : SmoothedAudio) : Prop :=
  0 ≤ sa.amplitude ∧ sa.amplitude ≤ 1 ∧ 0 ≤ sa.bass ∧ sa.bass ≤ 1
    ∧ 0 ≤ sa.mid ∧ sa.mid ≤ 1 ∧ 0 ≤ sa.treble ∧ sa.treble ≤ 1

/-- Running the smoothing block of `Visualizer.update` over a whole
sequence of frames, starting from the constructor's all-zero state. -/
def runSmoothing (frames : List AudioData) : SmoothedAudio :=
  frames.foldl updateSmoothing initialSmoothedAudio

lemma updateSmoothing_inUnit {sa : SmoothedAudio} {a : AudioData}
    (hsa : sa.inUnit) (ha : a.inUnit) : (updateSmoothing sa a).inUnit := by
  obtain ⟨h1, h2, h3, h4, h5, h6, h7, h8⟩ := hsa
  obtain ⟨g1, g2, g3, g4, g5, g6, g7, g8⟩ := ha
  have hs0 : (0:ℚ) ≤ sFactor := by norm_num [sFactor]
  have hs1 : sFactor ≤ 1 := by norm_num [sFactor]
  refine ⟨?_, ?_, ?_, ?_, ?_, ?_, ?_, ?_⟩
  · exact (smoothStep_mem_unit hs0 hs1 g1 g2 h1 h2).1
  · exact (smoothStep_mem_unit hs0 hs1 g1 g2 h1 h2).2
  · exact (smoothStep_mem_unit hs0 hs1 g3 g4 h3 h4).1
  · exact (smoothStep_mem_unit hs0 hs1 g3 g4 h3 h4).2
  · exact (smoothStep_mem_unit hs0 hs1 g5 g6 h5 h6).1
  · exact (smoothStep_mem_unit hs0 hs1 g5 g6 h5 h6).2
  · exact (smoothStep_mem_unit hs0 hs1 g7 g8 h7 h8).1
  · exact (smoothStep_mem_unit hs0 hs1 g7 g8 h7 h8).2

lemma foldl_updateSmoothing_inUnit {sa : SmoothedAudio} (hsa : sa.inUnit)
    (frames : List AudioData) (hf : ∀ a ∈ frames, a.inUnit) :
    (frames.foldl updateSmoothing sa).inUnit := by
  induction frames generalizing sa with
  | nil => exact hsa
  | cons a rest ih =>
    exact ih (updateSmoothing_inUnit hsa (hf a (List.mem_cons_self a rest)))
      fun b hb => hf b (List.mem_cons_of_mem a hb)

/-- C10: starting from the all-zero initial state of the constructor, if
every incoming feature value of every frame lies in `[0,1]` then after every
update call each of the four smoothed signals still lies in `[0,1]`. -/
theorem smoothing_preserves_unit_interval (frames : List AudioData)
    (hf : ∀ a ∈ frames, a.inUnit) : (runSmoothing frames).inUnit := by
  have h0 : initialSmoothedAudio.inUnit := by
    refine ⟨le_refl 0, ?_, le_refl 0, ?_, le_refl 0, ?_, le_refl 0, ?_⟩ <;>
      norm_num [initialSmoothedAudio]
  exact foldl_updateSmoothing_inUnit h0 frames hf

/-- Witness for C10 on a concrete two-frame run. -/
theorem smoothing_preserves_unit_interval_witness :
    (runSmoothing [⟨1, 1, 1, 1⟩, ⟨0, 1/2, 1, 0⟩]).inUnit :=
  smoothing_preserves_unit_interval [⟨1, 1, 1, 1⟩, ⟨0, 1/2, 1, 0⟩]
    (by intro a ha; fin_cases ha <;> exact ⟨by norm_num, by norm_num, by norm_num,
      by norm_num, by norm_num, by norm_num, by norm_num, by norm_num⟩)

/-! ## Background particle layers (BackgroundSystem.updateLayer,
background-system.js:594-631) -/

/-- A 3-component vector, modelling one stride-3 slot of the flat
`positions` / `velocities` typed arrays. -/
structure P3 where
  x : ℚ
  y : ℚ
  z : ℚ
deriving DecidableEq, Repr

/-- The wrap bounds of a particle layer (`layer.userData.bounds`,
background-system.js:598-599). -/
structure LayerBounds where
  xRange : ℚ
  yRange : ℚ
  zMin : ℚ
  zMax : ℚ
deriving DecidableEq, Repr

/-- The two sequential boundary checks applied to one coordinate
(background-system.js:616-621): first, a value strictly above `hi` is set
to `lo`; then a value strictly below `lo` is set to `hi`. -/
def wrapCoord (lo hi p : ℚ) : ℚ :=
  let p1 := if hi < p then lo else p
  if p1 < lo then hi else p1

/-- The position integration of one particle in `updateLayer`
(background-system.js:607-613): velocity plus a sinusoidal wave term,
scaled by `dynamicSpeed * dt * 10`. `msin`/`mcos` stand for `Math.sin` /
`Math.cos`. -/
def particleIntegrate (time dynamics dynSpeed dt : ℚ) (msin mcos : ℚ → ℚ)
    (i : ℕ) (vel p : P3) : P3 :=
  let waveX := msin (time * (5/10) + (i : ℚ) * (1/10)) * (1/10) * dynamics
  let waveY := mcos (time * (3/10) + (i : ℚ) * (15/100)) * (5/100) * dynamics
  { x := p.x + (vel.x + waveX) * dynSpeed * dt * 10
    y := p.y + (vel.y + waveY) * dynSpeed * dt * 10
    z := p.z + vel.z * dynSpeed * dt * 10 }

/-- The wrap block of `updateLayer` (background-system.js:615-621) applied
to all three coordinates of one particle. -/
def particleWrap (b : LayerBounds) (p : P3) : P3 :=
  { x := wrapCoord (-(b.xRange / 2)) (b.xRange / 2) p.x
    y := wrapCoord (-(b.yRange / 2)) (b.yRange / 2) p.y
    z := wrapCoord b.zMin b.zMax p.z }

/-- One full `updateLayer` step for one particle: integrate, then wrap
(background-system.js:604-622). -/
def particleStep (b : LayerBounds) (time dynamics dynSpeed dt : ℚ)
    (msin mcos : ℚ → ℚ) (i : ℕ) (vel p : P3) : P3 :=
  particleWrap b (particleIntegrate time dynamics dynSpeed dt msin mcos i vel p)

/-- Membership of a particle in the layer's wrap box. -/
def P3.inBounds (b : LayerBounds) (p : P3) : Prop :=
  -(b.xRange / 2) ≤ p.x ∧ p.x ≤ b.xRange / 2
    ∧ -(b.yRange / 2) ≤ p.y ∧ p.y ≤ b.yRange / 2
    ∧ b.zMin ≤ p.z ∧ p.z ≤ b.zMax

/-- The per-frame parameters fed to one `updateLayer` call. -/
structure FrameParams where
  time : ℚ
  dynamics : ℚ
  dynSpeed : ℚ
  dt : ℚ
deriving DecidableEq, Repr

/-- Repeated `updateLayer` steps on one particle across a sequence of
frames. -/
def runParticle (b : LayerBounds) (msin mcos : ℚ → ℚ) (i : ℕ) (vel : P3)
    (frames : List FrameParams) (p : P3) : P3 :=
  frames.foldl
    (fun q fp => particleStep b fp.time fp.dynamics fp.dynSpeed fp.dt msin mcos i vel q) p

lemma wrapCoord_eq {lo hi : ℚ} (h : lo ≤ hi) (p : ℚ) :
    wrapCoord lo hi p = if hi < p then lo else if p < lo then hi else p := by
  unfold wrapCoord
  by_cases h1 : hi < p
  · simp only [if_pos h1, lt_irrefl, if_false]
  · simp only [if_neg h1]

lemma wrapCoord_mem {lo hi : ℚ} (h : lo ≤ hi) (p : ℚ) :
    lo ≤ wrapCoord lo hi p ∧ wrapCoord lo hi p ≤ hi := by
  rw [wrapCoord_eq h]
  by_cases h1 : hi < p
  · rw [if_pos h1]; exact ⟨le_refl lo, h⟩
  · rw [if_neg h1]
    by_cases h2 : p < lo
    · rw [if_pos h2]; exact ⟨h, le_refl hi⟩
    · rw [if_neg h2]; exact ⟨not_lt.1 h2, not_lt.1 h1⟩

lemma wrapCoord_high {lo hi p : ℚ} (h : lo ≤ hi) (hp : hi < p) :
    wrapCoord lo hi p = lo := by
  rw [wrapCoord_eq h, if_pos hp]

lemma wrapCoord_low {lo hi p : ℚ} (h : lo ≤ hi) (hp : p < lo) :
    wrapCoord lo hi p = hi := by
  rw [wrapCoord_eq h, if_neg (by linarith), if_pos hp]

lemma wrapCoord_id {lo hi p : ℚ} (h1 : lo ≤ p) (h2 : p ≤ hi) :
    wrapCoord lo hi p = p := by
  rw [wrapCoord_eq (le_trans h1 h2), if_neg (by linarith), if_neg (by linarith)]

lemma particleStep_inBounds (b : LayerBounds) (hx : 0 ≤ b.xRange)
    (hy : 0 ≤ b.yRange) (hz : b.zMin ≤ b.zMax) (time dynamics dynSpeed dt : ℚ)
    (msin mcos : ℚ → ℚ) (i : ℕ) (vel p : P3) :
    (particleStep b time dynamics dynSpeed dt msin mcos i vel p).inBounds b := by
  have hx2 : -(b.xRange / 2) ≤ b.xRange / 2 := by linarith
  have hy2 : -(b.yRange / 2) ≤ b.yRange / 2 := by linarith
  unfold particleStep particleWrap P3.inBounds
  refine ⟨(wrapCoord_mem hx2 _).1, (wrapCoord_mem hx2 _).2,
    (wrapCoord_mem hy2 _).1, (wrapCoord_mem hy2 _).2,
    (wrapCoord_mem hz _).1, (wrapCoord_mem hz _).2⟩

/-- C2 counterexample: with bounds `xRange = 10` (so `halfRange = 5`), a
particle whose x-coordinate lands exactly at `+5` after the position
integration is NOT relocated to `-5`: the strict comparisons of
background-system.js:616-617 leave it at `+5`. -/
theorem wrap_exact_boundary_counterexample :
    (particleStep ⟨10, 10, -5, 5⟩ 0 1 1 (1/10) (fun _ => 0) (fun _ => 0) 0
        ⟨1, 0, 0⟩ ⟨4, 0, 0⟩).x = 5
    ∧ (particleStep ⟨10, 10, -5, 5⟩ 0 1 1 (1/10) (fun _ => 0) (fun _ => 0) 0
        ⟨1, 0, 0⟩ ⟨4, 0, 0⟩).x ≠ -5 := by
  constructor <;> norm_num [particleStep, particleIntegrate, particleWrap, wrapCoord]

/-- C2 as amended: a coordinate strictly beyond `+halfRange` after the
position integration is relocated to `-halfRange` (and vice versa), a
coordinate exactly at a boundary is left in place, and after every update
step — hence after any number of repeated steps — every particle coordinate
lies in `[-halfRange, +halfRange]` (respectively `[zMin, zMax]`). -/
theorem wrap_relocation_and_bounds (b : LayerBounds) (hx : 0 ≤ b.xRange)
    (hy : 0 ≤ b.yRange) (hz : b.zMin ≤ b.zMax) :
    (∀ lo hi p : ℚ, lo ≤ hi → hi < p → wrapCoord lo hi p = lo)
    ∧ (∀ lo hi p : ℚ, lo ≤ hi → p < lo → wrapCoord lo hi p = hi)
    ∧ (∀ lo hi p : ℚ, lo ≤ p → p ≤ hi → wrapCoord lo hi p = p)
    ∧ (∀ time dynamics dynSpeed dt : ℚ, ∀ msin mcos : ℚ → ℚ, ∀ i : ℕ, ∀ vel p : P3,
        (particleStep b time dynamics dynSpeed dt msin mcos i vel p).inBounds b)
    ∧ (∀ msin mcos : ℚ → ℚ, ∀ i : ℕ, ∀ vel p : P3, ∀ frames : List FrameParams,
        frames ≠ [] → (runParticle b msin mcos i vel frames p).inBounds b) := by
  refine ⟨fun lo hi p h hp => wrapCoord_high h hp,
    fun lo hi p h hp => wrapCoord_low h hp,
    fun lo hi p h1 h2 => wrapCoord_id h1 h2,
    fun time dynamics dynSpeed dt msin mcos i vel p =>
      particleStep_inBounds b hx hy hz time dynamics dynSpeed dt msin mcos i vel p,
    ?_⟩
  · intro msin mcos i vel p frames hne
    have preserve : ∀ (fl : List FrameParams) (q : P3), q.inBounds b →
        (runParticle b msin mcos i vel fl q).inBounds b := by
      intro fl
      induction fl with
      | nil => exact fun q hq => hq
      | cons fp rest ih =>
        exact fun q _ => ih _ (particleStep_inBounds b hx hy hz fp.time fp.dynamics
          fp.dynSpeed fp.dt msin mcos i vel q)
    cases frames with
    | nil => exact absurd rfl hne
    | cons fp rest =>
      exact preserve rest _ (particleStep_inBounds b hx hy hz fp.time fp.dynamics
        fp.dynSpeed fp.dt msin mcos i vel p)

/-- Witness for the amended C2 on concrete bounds. -/
theorem wrap_relocation_and_bounds_witness :
    ((∀ lo hi p : ℚ, lo ≤ hi → hi < p → wrapCoord lo hi p = lo)
    ∧ (∀ lo hi p : ℚ, lo ≤ hi → p < lo → wrapCoord lo hi p = hi)
    ∧ (∀ lo hi p : ℚ, lo ≤ p → p ≤ hi → wrapCoord lo hi p = p)
    ∧ (∀ time dynamics dynSpeed dt : ℚ, ∀ msin mcos : ℚ → ℚ, ∀ i : ℕ, ∀ vel p : P3,
        (particleStep ⟨200, 100, -50, 50⟩ time dynamics dynSpeed dt
          msin mcos i vel p).inBounds ⟨200, 100, -50, 50⟩)
    ∧ (∀ msin mcos : ℚ → ℚ, ∀ i : ℕ, ∀ vel p : P3, ∀ frames : List FrameParams,
        frames ≠ [] →
          (runParticle ⟨200, 100, -50, 50⟩ msin mcos i vel frames p).inBounds
            ⟨200, 100, -50, 50⟩)) :=
  wrap_relocation_and_bounds ⟨200, 100, -50, 50⟩ (by norm_num) (by norm_num) (by norm_num)

/-! ## Entity-collection stability (Visualizer.updateBackground,
visualizer.js:603-651, and BackgroundSystem.updateLayer) -/

/-- The `userData.type` tag of a flying object (visualizer.js:608, 618);
objects with any other tag are left untouched by `updateBackground`. -/
inductive FOType where
  | debris
  | meteor
  | other
deriving DecidableEq, Repr

/-- One entry of `this.flyingObjects` with the `userData` fields read by
`Visualizer.updateBackground` (visualizer.js:606-625). -/
structure FlyingObject where
  typ : FOType
  pos : P3
  rot : P3
  velocity : P3
  rotVel : P3
  startZ : ℚ
  startPos : P3
deriving DecidableEq, Repr

/-- One `updateBackground` step on a single flying object
(visualizer.js:606-625): debris and meteors integrate their velocity and
are repositioned — never removed — when they leave the view volume; `rnd`
stands for the `Math.random()` draws of the repositioning branch. -/
def flyingStep (delta speed : ℚ) (rnd : ℕ → ℚ) (o : FlyingObject) : FlyingObject :=
  match o.typ with
  | .debris =>
    let p : P3 := ⟨o.pos.x + o.velocity.x * (delta * 10 * speed),
                   o.pos.y + o.velocity.y * (delta * 10 * speed),
                   o.pos.z + o.velocity.z * (delta * 10 * speed)⟩
    let r : P3 := ⟨o.rot.x + o.rotVel.x * speed,
                   o.rot.y + o.rotVel.y * speed,
                   o.rot.z + o.rotVel.z * speed⟩
    if 50 < p.z then
      { o with rot := r, pos := ⟨(rnd 0 - 1/2) * 200, (rnd 1 - 1/2) * 100, o.startZ⟩ }
    else
      { o with rot := r, pos := p }
  | .meteor =>
    let p : P3 := ⟨o.pos.x + o.velocity.x * (delta * 10 * speed),
                   o.pos.y + o.velocity.y * (delta * 10 * speed),
                   o.pos.z + o.velocity.z * (delta * 10 * speed)⟩
    if 50 < p.z ∨ p.y < -80 then
      { o with pos := ⟨(rnd 2 - 1/2) * 150, o.startPos.y, o.startPos.z⟩ }
    else
      { o with pos := p }
  | .other => o

/-- The `this.flyingObjects.forEach` loop of `updateBackground`
(visualizer.js:606-625): every object is updated in place. -/
def updateFlyingObjects (delta speed : ℚ) (rnd : ℕ → ℕ → ℚ)
    (objs : List FlyingObject) : List FlyingObject :=
  objs.mapIdx fun i o => flyingStep delta speed (rnd i) o

/-- The deep-particle loop of `updateBackground` (visualizer.js:639-650):
each slot of the preallocated position buffer is rewritten from the stored
`originalPositions` plus a sinusoidal offset; the z component is left
unchanged. -/
def deepParticleStep (time speed : ℚ) (msin mcos : ℚ → ℚ) (orig : ℕ → P3)
    (i : ℕ) (p : P3) : P3 :=
  ⟨(orig i).x + msin (time * (1/10) * speed + (i : ℚ) * (1/100)) * 2,
   (orig i).y + mcos (time * (8/100) * speed + (i : ℚ) * (1/100)) * 2,
   p.z⟩

/-- In-place rewrite of the whole deep-particle position buffer
(visualizer.js:641-647). -/
def updateDeepParticles (time speed : ℚ) (msin mcos : ℚ → ℚ) (orig : ℕ → P3)
    (positions : List P3) : List P3 :=
  positions.mapIdx (deepParticleStep time speed msin mcos orig)

/-- The per-particle loop of `BackgroundSystem.updateLayer`
(background-system.js:604-622) over the whole preallocated position
buffer, with the layer's read-only `velocities` buffer as `vels`. -/
def updateLayerPositions (b : LayerBounds) (time dynamics dynSpeed dt : ℚ)
    (msin mcos : ℚ → ℚ) (vels : ℕ → P3) (positions : List P3) : List P3 :=
  positions.mapIdx fun i p =>
    particleStep b time dynamics dynSpeed dt msin mcos i (vels i) p

/-- The animated entity collections mutated by the per-frame background
updates. -/
structure BackgroundState where
  layerPositions : List P3
  flyingObjects : List FlyingObject
  deepPositions : List P3

/-- The per-frame inputs of one background update: elapsed time, config
parameters, and the frame's `Math.sin` / `Math.cos` / `Math.random`
oracles. -/
structure BgFrameInput where
  time : ℚ
  dynamics : ℚ
  dynSpeed : ℚ
  dt : ℚ
  speed : ℚ
  msin : ℚ → ℚ
  mcos : ℚ → ℚ
  rnd : ℕ → ℕ → ℚ

/-- One combined per-frame background update: the layer particle loop,
the flying-object loop and the deep-particle loop, each mutating its
preallocated collection in place. -/
def backgroundFrame (b : LayerBounds) (vels orig : ℕ → P3) (st : BackgroundState)
    (inp : BgFrameInput) : BackgroundState :=
  { layerPositions := updateLayerPositions b inp.time inp.dynamics inp.dynSpeed
      inp.dt inp.msin inp.mcos vels st.layerPositions
    flyingObjects := updateFlyingObjects inp.dt inp.speed inp.rnd st.flyingObjects
    deepPositions := updateDeepParticles inp.time inp.speed inp.msin inp.mcos
      orig st.deepPositions }

/-- Any number of consecutive per-frame background updates. -/
def runBackground (b : LayerBounds) (vels orig : ℕ → P3)
    (inputs : List BgFrameInput) (st : BackgroundState) : BackgroundState :=
  inputs.foldl (backgroundFrame b vels orig) st

lemma backgroundFrame_lengths (b : LayerBounds) (vels orig : ℕ → P3)
    (st : BackgroundState) (inp : BgFrameInput) :
    (backgroundFrame b vels orig st inp).layerPositions.length
        = st.layerPositions.length
    ∧ (backgroundFrame b vels orig st inp).flyingObjects.length
        = st.flyingObjects.length
    ∧ (backgroundFrame b vels orig st inp).deepPositions.length
        = st.deepPositions.length := by
  refine ⟨?_, ?_, ?_⟩ <;>
    simp [backgroundFrame, updateLayerPositions, updateFlyingObjects,
      updateDeepParticles]

/-- C3: for every sequence of per-frame update calls (any length) on a
fixed entity collection, the number of animated entities never changes and
the per-entity buffers keep their length: layer particle positions and deep
particle positions are rewritten slot by slot in the preallocated buffers,
and flying objects are repositioned one-for-one, never removed, added, or
reallocated. -/
theorem background_entity_collection_stable (b : LayerBounds)
    (vels orig : ℕ → P3) (inputs : List BgFrameInput) (st : BackgroundState) :
    (runBackground b vels orig inputs st).layerPositions.length
        = st.layerPositions.length
    ∧ (runBackground b vels orig inputs st).flyingObjects.length
        = st.flyingObjects.length
    ∧ (runBackground b vels orig inputs st).deepPositions.length
        = st.deepPositions.length := by
  induction inputs generalizing st with
  | nil => exact ⟨rfl, rfl, rfl⟩
  | cons inp rest ih =>
    obtain ⟨h1, h2, h3⟩ := backgroundFrame_lengths b vels orig st inp
    obtain ⟨g1, g2, g3⟩ := ih (backgroundFrame b vels orig st inp)
    exact ⟨g1.trans h1, g2.trans h2, g3.trans h3⟩

/-! ## Application-level source switching (Auralux, main.js) -/

/-- The kind of connected audio source (`audioAnalyzer.sourceType`,
read by `Auralux.animate`, main.js:170). -/
inductive SourceKind where
  | microphone
  | file
deriving DecidableEq, Repr

/-- The application events of `Auralux.setupUICallbacks` and the
per-frame `animate` callback (main.js:57-190): a successful or failed
source connect, or one animation frame. -/
inductive AppEvent where
  | connectMic
  | connectFile
  | connectMicFail
  | connectFileFail
  | frame (dt : ℚ) (a : AudioData)
deriving Repr

/-- The application state visible to the per-frame loop: the analyzer's
source type, the visualizer's clock time and its persistent smoothing
state. -/
structure AppState where
  sourceType : Option SourceKind
  time : ℚ
  smoothed : SmoothedAudio
deriving DecidableEq, Repr

/-- The synthetic idle feature vector of `Visualizer.renderIdle`
(visualizer.js:757-763), evaluated at idle-clock value `t`. -/
def idleAudioData (msin : ℚ → ℚ) (t : ℚ) : AudioData :=
  { amplitude := 5/100 + msin (t * (5/10)) * (3/100)
    bass := 4/100 + msin (t * (3/10)) * (2/100)
    mid := 3/100 + msin (t * (4/10)) * (2/100)
    treble := 2/100 + msin (t * (6/10)) * (1/100) }

/-- Modelled from the spec: the bodies of `AudioAnalyzer.connectMicrophone`
and `AudioAnalyzer.connectAudioFile` are not under `src/` (audio-analyzer.js
is imported by main.js:6 but absent). Per spec §4.1/§7 a failed connect
leaves the core in the "no source" state, and main.js:65-68 and 103-105
touch only the UI controller in the catch branch, so a failed connect
leaves the modelled application state unchanged. -/
def failedConnect (s : AppState) : AppState := s

/-- One application event step. The successful connect branches
(main.js:59-106) set the analyzer's source but perform no write to
`visualizer.smoothedAudio`; a frame (main.js:164-190) runs
`Visualizer.update` on live audio when a source is present, and
`Visualizer.renderIdle` — which feeds the synthetic idle vector through the
same smoothing update — otherwise. -/
def appStep (msin : ℚ → ℚ) (s : AppState) (e : AppEvent) : AppState :=
  match e with
  | .connectMic => { s with sourceType := some .microphone }
  | .connectFile => { s with sourceType := some .file }
  | .connectMicFail => failedConnect s
  | .connectFileFail => failedConnect s
  | .frame dt a =>
    match s.sourceType with
    | some _ => { s with time := s.time + dt
                         smoothed := updateSmoothing s.smoothed a }
    | none => { s with time := s.time + dt
                       smoothed := updateSmoothing s.smoothed
                         (idleAudioData msin (s.time + dt)) }

/-- Running a sequence of application events. -/
def appRun (msin : ℚ → ℚ) (s : AppState) (events : List AppEvent) : AppState :=
  events.foldl (appStep msin) s

/-- The initial application state: no source, clock at zero, all-zero
smoothing state (visualizer.js:49-50, main.js:12-16). -/
def initialAppState : AppState :=
  { sourceType := none, time := 0, smoothed := initialSmoothedAudio }

/-- Whether a frame takes the idle-rendering branch instead of calling
`analyze()` (main.js:170-180: `analyze` runs exactly when
`audioAnalyzer.sourceType` is truthy). -/
def frameRendersIdle (s : AppState) : Bool :=
  s.sourceType.isNone

/-- C4 counterexample: play one loud frame from a connected file, then
connect the microphone. The smoothing state is NOT reset to zero (it still
holds amplitude `3/25` from the file), and after the new source's first
frame with incoming sample `0` the state is `66/625`, not the first
incoming sample — stale energy carries over. -/
theorem smoothing_not_reset_on_connect_counterexample :
    (appRun (fun _ => 0) initialAppState
        [.connectFile, .frame 1 ⟨1, 1, 1, 1⟩, .connectMic]).smoothed.amplitude = 3/25
    ∧ (appRun (fun _ => 0) initialAppState
        [.connectFile, .frame 1 ⟨1, 1, 1, 1⟩, .connectMic]).smoothed.amplitude
        ≠ initialSmoothedAudio.amplitude
    ∧ (appRun (fun _ => 0) initialAppState
        [.connectFile, .frame 1 ⟨1, 1, 1, 1⟩, .connectMic,
          .frame 1 ⟨0, 0, 0, 0⟩]).smoothed.amplitude = 66/625 := by
  refine ⟨?_, ?_, ?_⟩ <;>
    norm_num [appRun, appStep, updateSmoothing, smoothStep, sFactor,
      initialAppState, initialSmoothedAudio, idleAudioData]

/-- C4 as amended: the smoothing state is initialized to zero when the
driver is constructed, but connecting a new audio source (microphone or
file) performs no reset of the smoothing state — smoothed energy from the
previously connected source carries over into the new source's first
frames; between consecutive frames the state is likewise never reset, each
frame applying only the one-pole update. -/
theorem smoothing_state_persists_across_connect (msin : ℚ → ℚ) (s : AppState)
    (dt : ℚ) (a : AudioData) (k : SourceKind) (hk : s.sourceType = some k) :
    initialAppState.smoothed = ⟨0, 0, 0, 0⟩
    ∧ (appStep msin s .connectMic).smoothed = s.smoothed
    ∧ (appStep msin s .connectFile).smoothed = s.smoothed
    ∧ (appStep msin s (.frame dt a)).smoothed = updateSmoothing s.smoothed a := by
  refine ⟨rfl, rfl, rfl, ?_⟩
  simp [appStep, hk]

/-- Witness for the amended C4 at a concrete connected state. -/
theorem smoothing_state_persists_across_connect_witness :
    initialAppState.smoothed = ⟨0, 0, 0, 0⟩
    ∧ (appStep (fun _ => 0) ⟨some .file, 2, ⟨1/2, 0, 0, 0⟩⟩ .connectMic).smoothed
        = (⟨some SourceKind.file, 2, ⟨1/2, 0, 0, 0⟩⟩ : AppState).smoothed
    ∧ (appStep (fun _ => 0) ⟨some .file, 2, ⟨1/2, 0, 0, 0⟩⟩ .connectFile).smoothed
        = (⟨some SourceKind.file, 2, ⟨1/2, 0, 0, 0⟩⟩ : AppState).smoothed
    ∧ (appStep (fun _ => 0) ⟨some .file, 2, ⟨1/2, 0, 0, 0⟩⟩
        (.frame 1 ⟨1, 1, 1, 1⟩)).smoothed
        = updateSmoothing (⟨some SourceKind.file, 2, ⟨1/2, 0, 0, 0⟩⟩ : AppState).smoothed
            ⟨1, 1, 1, 1⟩ :=
  smoothing_state_persists_across_connect (fun _ => 0)
    ⟨some .file, 2, ⟨1/2, 0, 0, 0⟩⟩ 1 ⟨1, 1, 1, 1⟩ .file rfl

/-- C6: a failed connect (microphone permission denied or file decode
error) leaves the application in the no-source state; every subsequent
animation frame takes the idle-rendering branch (renders the synthetic
idle signal instead of calling `analyze()`), and a later retry that
succeeds connects the source without restarting. -/
theorem failed_connect_stays_idle (msin : ℚ → ℚ) (s : AppState)
    (h : s.sourceType = none) :
    (appStep msin s .connectMicFail).sourceType = none
    ∧ (appStep msin s .connectFileFail).sourceType = none
    ∧ (∀ frames : List AppEvent, (∀ e ∈ frames, ∃ dt a, e = .frame dt a) →
        frameRendersIdle (appRun msin (appStep msin s .connectMicFail) frames) = true)
    ∧ (appStep msin (appStep msin s .connectMicFail) .connectMic).sourceType
        = some .microphone := by
  have hstepnone : ∀ t : AppState, t.sourceType = none →
      ∀ e : AppEvent, (∃ dt a, e = .frame dt a) →
        (appStep msin t e).sourceType = none := by
    intro t ht e he
    obtain ⟨dt, a, rfl⟩ := he
    simp [appStep, ht]
  refine ⟨by simp [appStep, failedConnect, h], by simp [appStep, failedConnect, h],
    ?_, by simp [appStep]⟩
  intro frames hframes
  have hfc : (appStep msin s .connectMicFail).sourceType = none := by
    simp [appStep, failedConnect, h]
  have : ∀ (fl : List AppEvent), (∀ e ∈ fl, ∃ dt a, e = .frame dt a) →
      ∀ t : AppState, t.sourceType = none → (appRun msin t fl).sourceType = none := by
    intro fl
    induction fl with
    | nil => exact fun _ t ht => ht
    | cons e rest ih =>
      intro hall t ht
      exact ih (fun e' he' => hall e' (List.mem_cons_of_mem e he'))
        (appStep msin t e) (hstepnone t ht e (hall e (List.mem_cons_self e rest)))
  have hnone := this frames hframes (appStep msin s .connectMicFail) hfc
  simp [frameRendersIdle, hnone]

/-- Witness for C6 from the initial state with one retry trace. -/
theorem failed_connect_stays_idle_witness :
    (appStep (fun _ => 0) initialAppState .connectMicFail).sourceType = none
    ∧ (appStep (fun _ => 0) initialAppState .connectFileFail).sourceType = none
    ∧ (∀ frames : List AppEvent, (∀ e ∈ frames, ∃ dt a, e = .frame dt a) →
        frameRendersIdle (appRun (fun _ => 0)
          (appStep (fun _ => 0) initialAppState .connectMicFail) frames) = true)
    ∧ (appStep (fun _ => 0) (appStep (fun _ => 0) initialAppState .connectMicFail)
        .connectMic).sourceType = some .microphone :=
  failed_connect_stays_idle (fun _ => 0) initialAppState rfl

/-! ## Frame delta handling (Visualizer.update, visualizer.js:552-573 and
updateMeshes, visualizer.js:1269-1339) -/

/-- The frame delta as used by `Visualizer.update` (visualizer.js:553,
1238): the value of `this.clock.getDelta()` is used directly — no clamp or
other transformation is applied before it reaches the per-entity update
arithmetic. -/
def updateDelta (raw : ℚ) : ℚ := raw

/-- The torus rotation accumulation of `updateMeshes`
(visualizer.js:1302): `rotation.x += delta * (1 + bass * 2)`. -/
def torusRotX (rot delta bass : ℚ) : ℚ := rot + delta * (1 + bass * 2)

/-- The cube rotation accumulation of `updateMeshes`
(visualizer.js:1310): `rotation.x += delta * bass * 2`. -/
def cubeRotX (rot delta bass : ℚ) : ℚ := rot + delta * bass * 2

/-- C5 counterexample: a degenerate frame delta is NOT clamped to a
positive epsilon — `updateDelta 0 = 0` and `updateDelta (-1) = -1` are not
positive, and the zero and negative deltas reach the per-entity rotation
accumulation unchanged. -/
theorem dt_not_clamped_counterexample :
    ¬ (0 < updateDelta 0)
    ∧ ¬ (0 < updateDelta (-1))
    ∧ torusRotX 1 (updateDelta 0) (1/2) = 1
    ∧ torusRotX 1 (updateDelta (-1)) 0 = 0 := by
  refine ⟨?_, ?_, ?_, ?_⟩ <;> norm_num [updateDelta, torusRotX]

/-- C5 as amended: the per-frame driver update is a total function of its
inputs (it never fails), but no internal epsilon clamp exists: the delta
used in every rotation/position accumulation equals the raw clock delta,
and a zero delta simply leaves every accumulated rotation unchanged (no
division by the delta occurs anywhere in the update). -/
theorem dt_passthrough_total (raw rot bass : ℚ) :
    updateDelta raw = raw
    ∧ torusRotX rot (updateDelta 0) bass = rot
    ∧ cubeRotX rot (updateDelta 0) bass = rot := by
  refine ⟨rfl, ?_, ?_⟩ <;> simp [updateDelta, torusRotX, cubeRotX]

/-! ## Idle determinism (Visualizer.renderIdle, visualizer.js:1415-1432) -/

/-- The visualizer state fields around the idle generator: the idle clock
plus unrelated mutable settings (visualizer.js:781-798). -/
structure VisState where
  time : ℚ
  sensitivity : ℚ
  rotationSpeed : ℚ
  meshCount : ℕ
deriving DecidableEq, Repr

/-- The synthetic idle feature vector fields (visualizer.js:1420-1429). -/
structure IdleVec where
  amplitude : ℚ
  bass : ℚ
  mid : ℚ
  treble : ℚ
  peak : ℚ
  frequencies : List ℚ
deriving DecidableEq, Repr

/-- The idle feature generator of `Visualizer.renderIdle`
(visualizer.js:1420-1429): phase-offset sinusoids of the idle clock, a
zero peak, and a 128-slot frequencies array. -/
def idleFeatures (msin : ℚ → ℚ) (s : VisState) : IdleVec :=
  { amplitude := 5/100 + msin s.time * (2/100)
    bass := 3/100 + msin (s.time * (5/10)) * (2/100)
    mid := 3/100 + msin (s.time * (7/10)) * (2/100)
    treble := 2/100 + msin (s.time * (9/10)) * (1/100)
    peak := 0
    frequencies := (List.range 128).map fun i =>
      2/100 + msin (s.time + (i : ℚ) * (1/10)) * (2/100) }

/-- C7: the idle feature generator is deterministic — it reads only the
idle-clock value, so two evaluations at states sharing the same clock value
(and no intervening mutation) produce identical synthetic feature vectors,
including equal values at every index of the frequencies array. -/
theorem idle_features_deterministic (msin : ℚ → ℚ) (s1 s2 : VisState)
    (h : s1.time = s2.time) :
    idleFeatures msin s1 = idleFeatures msin s2
    ∧ ∀ i : ℕ, (idleFeatures msin s1).frequencies.get? i
        = (idleFeatures msin s2).frequencies.get? i := by
  have heq : idleFeatures msin s1 = idleFeatures msin s2 := by
    simp [idleFeatures, h]
  exact ⟨heq, fun i => by rw [heq]⟩

/-- Witness for C7: two states with equal clock but different settings. -/
theorem idle_features_deterministic_witness :
    idleFeatures (fun q => q) ⟨1, 2, 3, 4⟩ = idleFeatures (fun q => q) ⟨1, 5, 6, 7⟩
    ∧ ∀ i : ℕ, (idleFeatures (fun q => q) ⟨1, 2, 3, 4⟩).frequencies.get? i
        = (idleFeatures (fun q => q) ⟨1, 5, 6, 7⟩).frequencies.get? i :=
  idle_features_deterministic (fun q => q) ⟨1, 2, 3, 4⟩ ⟨1, 5, 6, 7⟩ rfl

/-! ## Band partition of the magnitude spectrum (C8) -/

/-- Modelled from the spec: the band split of `AudioAnalyzer.analyze`
(audio-analyzer.js is imported by main.js:6 but is not under `src/`). Per
spec §4.1 step 3, the bass band covers bin indices `[0, 0.10N)`. -/
def bassRange (N : ℕ) : Finset ℕ :=
  (Finset.range N).filter fun i => (i : ℚ) < (N : ℚ) * (10/100)

/-- Modelled from the spec: the mid band covers bin indices
`[0.10N, 0.40N)` (spec §4.1 step 3; analyzer source absent from `src/`). -/
def midRange (N : ℕ) : Finset ℕ :=
  (Finset.range N).filter fun i =>
    (N : ℚ) * (10/100) ≤ (i : ℚ) ∧ (i : ℚ) < (N : ℚ) * (40/100)

/-- Modelled from the spec: the treble band covers bin indices
`[0.40N, N)` (spec §4.1 step 3; analyzer source absent from `src/`). -/
def trebleRange (N : ℕ) : Finset ℕ :=
  (Finset.range N).filter fun i => (N : ℚ) * (40/100) ≤ (i : ℚ)

/-- C8: for any spectrum length `N ≥ 3`, the bass, mid and treble bin
ranges are pairwise disjoint and their union is `[0, N)` — the three bands
partition the magnitude spectrum exactly once, with no overlap and no
gap. -/
theorem band_ranges_partition (N : ℕ) (hN : 3 ≤ N) :
    Disjoint (bassRange N) (midRange N)
    ∧ Disjoint (bassRange N) (trebleRange N)
    ∧ Disjoint (midRange N) (trebleRange N)
    ∧ bassRange N ∪ midRange N ∪ trebleRange N = Finset.range N := by
  have hNq : (0 : ℚ) ≤ (N : ℚ) := Nat.cast_nonneg N
  refine ⟨?_, ?_, ?_, ?_⟩
  · rw [Finset.disjoint_left]
    intro i hib him
    rw [bassRange, Finset.mem_filter] at hib
    rw [midRange, Finset.mem_filter] at him
    linarith [hib.2, him.2.1]
  · rw [Finset.disjoint_left]
    intro i hib hit
    rw [bassRange, Finset.mem_filter] at hib
    rw [trebleRange, Finset.mem_filter] at hit
    linarith [hib.2, hit.2]
  · rw [Finset.disjoint_left]
    intro i him hit
    rw [midRange, Finset.mem_filter] at him
    rw [trebleRange, Finset.mem_filter] at hit
    linarith [him.2.2, hit.2]
  · ext i
    simp only [bassRange, midRange, trebleRange, Finset.mem_union,
      Finset.mem_filter, Finset.mem_range]
    constructor
    · rintro ((⟨h, _⟩ | ⟨h, _⟩) | ⟨h, _⟩) <;> exact h
    · intro h
      by_cases h1 : (i : ℚ) < (N : ℚ) * (10/100)
      · exact Or.inl (Or.inl ⟨h, h1⟩)
      · by_cases h2 : (i : ℚ) < (N : ℚ) * (40/100)
        · exact Or.inl (Or.inr ⟨h, not_lt.1 h1, h2⟩)
        · exact Or.inr ⟨h, not_lt.1 h2⟩

/-- Witness for C8 at `N = 10`. -/
theorem band_ranges_partition_witness :
    Disjoint (bassRange 10) (midRange 10)
    ∧ Disjoint (bassRange 10) (trebleRange 10)
    ∧ Disjoint (midRange 10) (trebleRange 10)
    ∧ bassRange 10 ∪ midRange 10 ∪ trebleRange 10 = Finset.range 10 :=
  band_ranges_partition 10 (by norm_num)

/-! ## Per-entity opacity (C9): README.md updateRings/updateSurround and
visualizer.js:1330-1337 -/

/-- The ring opacity written by the extended `updateRings`
(src/README.md:747-749): base opacity `0.6 - i * 0.08` plus
`amplitude * 0.3`, with no clamp. -/
def ringOpacity (i : ℕ) (amplitude : ℚ) : ℚ :=
  (6/10 - (i : ℚ) * (8/100)) + amplitude * (3/10)

/-- The surround opacity written by the extended `updateSurround`
(src/README.md:808-811): `Math.min(1, baseOpacity + amplitude * 0.3)` —
clamped above only. -/
def surroundOpacity (baseOpacity amplitude : ℚ) : ℚ :=
  min 1 (baseOpacity + amplitude * (3/10))

/-- The mesh opacity written by `updateMeshes` (visualizer.js:1336):
`0.7 + freqValue * 0.3`, with no clamp. -/
def meshOpacity (freqValue : ℚ) : ℚ :=
  7/10 + freqValue * (3/10)

/-- C9 counterexample: the ring opacity written for ring index `8` at
amplitude `0` is `-1/25`, which lies outside `[0, 1]` — the written value
is not clamped. -/
theorem ring_opacity_unclamped_counterexample :
    ringOpacity 8 0 = -(1/25) ∧ ¬ (0 ≤ ringOpacity 8 0) := by
  constructor <;> norm_num [ringOpacity]

/-- C9 as amended: each written opacity is a base value plus a term
proportional to the amplitude or frequency value, but no general `[0,1]`
clamp exists. The mesh opacity `0.7 + 0.3·freq` lies in `[0,1]` for
`freq ∈ [0,1]` by arithmetic alone; the surround opacity is clamped above
by `min 1` and is nonnegative for base and amplitude in `[0,1]`; the ring
opacity `(0.6 − 0.08·i) + 0.3·amplitude` is unclamped and lies in `[0,1]`
only for ring indices up to `7` — for index `8` at amplitude `0` it is
negative. -/
theorem opacity_bounds (freq amp base : ℚ) (hf0 : 0 ≤ freq) (hf1 : freq ≤ 1)
    (ha0 : 0 ≤ amp) (ha1 : amp ≤ 1) (hb0 : 0 ≤ base) (hb1 : base ≤ 1) :
    (0 ≤ meshOpacity freq ∧ meshOpacity freq ≤ 1)
    ∧ (0 ≤ surroundOpacity base amp ∧ surroundOpacity base amp ≤ 1)
    ∧ (∀ i : ℕ, i ≤ 7 → 0 ≤ ringOpacity i amp ∧ ringOpacity i amp ≤ 1)
    ∧ ringOpacity 8 0 < 0 := by
  refine ⟨⟨?_, ?_⟩, ⟨?_, ?_⟩, ?_, by norm_num [ringOpacity]⟩
  · unfold meshOpacity; linarith
  · unfold meshOpacity; linarith
  · unfold surroundOpacity
    exact le_min (by norm_num) (by nlinarith)
  · exact min_le_left 1 _
  · intro i hi
    have hiq : (i : ℚ) ≤ 7 := by exact_mod_cast hi
    have hiq0 : (0 : ℚ) ≤ (i : ℚ) := Nat.cast_nonneg i
    unfold ringOpacity
    constructor <;> nlinarith

/-- Witness for the amended C9 at `freq = 1`, `amp = 1/2`, `base = 7/10`. -/
theorem opacity_bounds_witness :
    (0 ≤ meshOpacity 1 ∧ meshOpacity 1 ≤ 1)
    ∧ (0 ≤ surroundOpacity (7/10) (1/2) ∧ surroundOpacity (7/10) (1/2) ≤ 1)
    ∧ (∀ i : ℕ, i ≤ 7 → 0 ≤ ringOpacity i (1/2) ∧ ringOpacity i (1/2) ≤ 1)
    ∧ ringOpacity 8 0 < 0 :=
  opacity_bounds 1 (1/2) (7/10) (by norm_num) (by norm_num) (by norm_num)
    (by norm_num) (by norm_num) (by norm_num)

end Auralux
